import Mathlib

/-!
Verification of the image-blobber scaling library (src/index.ts).

A shallow embedding of the library's three public operations and the
private image loader, translated from `src/index.ts`:

* `getImageData` — the Image Loader: decodes a base64 string through the
  host and reports natural dimensions, failing with an image-decode error
  carrying the host-reported abort event.
* `getFileBlobs` — the File Enumerator: `[...(input.files || [])]`.
* `getBase64` — the Base64 Converter: host file read, then the loader.
* `scaleBase64` — the Scaler: synchronous option validation, then the
  loader, then the sizing policy and the canvas re-encode.

JavaScript numbers are modelled as rationals (`ℚ`); optional numeric
option fields are `Option ℚ` (`none` = the field is not a number, i.e.
absent); JS truthiness of a number is "nonzero".  Host capabilities
(image decode, file read, canvas context availability, `canvas.toDataURL`)
are an explicit `Host` parameter.  A call's synchronous outcome is the
outer `Except` layer (a synchronous `throw` is an outer `.error`); the
promise's eventual outcome is the inner `Except` layer.
-/

namespace ImageBlobber

/-- Structure `Dimensions` from src/index.ts: a height/width pair of JS numbers. -/
structure Dimensions where
  height : ℚ
  width : ℚ
deriving DecidableEq, Repr

/-- Structure `BlobData` from src/index.ts: a base64 image string plus dimensions. -/
structure BlobData where
  base64 : String
  dimensions : Dimensions
deriving DecidableEq, Repr

/-- Structure `BlobDetails` from src/index.ts: `BlobData` plus the client-side filename. -/
structure BlobDetails extends BlobData where
  filename : String
deriving DecidableEq, Repr

/-- Structure `ScaleOptions` from src/index.ts.  `none` models a field that is not a
number (absent).  The field `preserveAspect` embeds the source's
aspect-ratio flag (`preserveRatio`), an optional boolean defaulting to
true when absent. -/
structure ScaleOptions where
  height : Option ℚ
  width : Option ℚ
  preserveAspect : Option Bool
deriving DecidableEq, Repr

/-- A decoded image: its natural dimensions plus an opaque handle standing
for the `HTMLImageElement` the host produced. -/
structure ImageData where
  dimensions : Dimensions
  image : Nat
deriving DecidableEq, Repr

/-- A `File` handle: the client-side name plus an opaque content id. -/
structure File where
  name : String
  content : Nat
deriving DecidableEq, Repr

/-- An HTML file input: its `files` property, which may be null (`none`). -/
structure FileInput where
  files : Option (List File)
deriving DecidableEq, Repr

/-- The errors a call can surface, as the spec's taxonomy names them.
`imageDecodeError` and `fileReadError` carry the host-reported abort
event (opaque, modelled as `Nat`). -/
inductive JSError where
  | invalidOptions
  | fileReadError (event : Nat)
  | imageDecodeError (event : Nat)
  | renderContextError
deriving DecidableEq, Repr

/-- The host-provided capabilities the library calls through:
image decode (`new Image()` + `onload`/`onabort`), file read
(`FileReader.readAsDataURL` + `onload`/`onabort`), 2D-context
availability (`canvas.getContext("2d")` non-null), and canvas re-encode
(`canvas.toDataURL()`, a function of the drawn image and canvas size). -/
structure Host where
  decode : String → Except Nat ImageData
  read : File → Except Nat String
  contextAvailable : Bool
  toDataURL : Nat → Dimensions → String

/-- Function `getImageData` from src/index.ts: asks the host to decode the base64
string; on success resolves with the image and its natural dimensions,
on abort rejects with the host-reported event (the spec's
`ImageDecodeError`). -/
def getImageData (host : Host) (base64 : String) : Except JSError ImageData :=
  match host.decode base64 with
  | .ok data => .ok data
  | .error event => .error (.imageDecodeError event)

/-- Function `getFileBlobs` from src/index.ts: `[...(input.files || [])]`, wrapped in
an already-resolved promise.  Total — no failure path. -/
def getFileBlobs (input : FileInput) : List File :=
  input.files.getD []

/-- Function `getBase64` from src/index.ts: host file read, then `getImageData` on
the resulting data URL; composes `BlobDetails` on success.  A read abort
rejects with the spec's `FileReadError`; a loader failure propagates as
this call's failure unchanged. -/
def getBase64 (host : Host) (file : File) : Except JSError BlobDetails :=
  match host.read file with
  | .error event => .error (.fileReadError event)
  | .ok base64 =>
    match getImageData host base64 with
    | .error e => .error e
    | .ok imageData =>
      .ok { base64 := base64, filename := file.name,
            dimensions := imageData.dimensions }

/-- JS `value || fallback` on an optional number: a present nonzero value
wins; an absent or zero (falsy) value yields the fallback. -/
def jsOrNum (value : Option ℚ) (fallback : ℚ) : ℚ :=
  match value with
  | some x => if x = 0 then fallback else x
  | none => fallback

/-- The Scaler's `scaleDown` flag from src/index.ts, line 135:
`(options.height && fullDimensions.height > options.height) ||
 (options.width && fullDimensions.width > options.width)`,
with JS truthiness of the option fields made explicit. -/
def scaleDown (opts : ScaleOptions) (full : Dimensions) : Bool :=
  (match opts.height with
   | some h => decide (h ≠ 0) && decide (h < full.height)
   | none => false) ||
  (match opts.width with
   | some w => decide (w ≠ 0) && decide (w < full.width)
   | none => false)

/-- What the sizing policy decided: short-circuit (return the original
string, no canvas work) or render onto a canvas of the given size. -/
inductive SizingDecision where
  | skip
  | render (dims : Dimensions)
deriving DecidableEq, Repr

/-- The Scaler's sizing policy, src/index.ts lines 131–167: free scaling
when the aspect flag is exactly `false` (each axis `options.x || natural`),
otherwise the ratio-preserving policy — short-circuit unless `scaleDown`,
else one factor `percentage` chosen from `options.height || 0` /
`options.width || 0` and the larger natural axis, applied to both axes. -/
def scaleSizing (opts : ScaleOptions) (full : Dimensions) : SizingDecision :=
  if opts.preserveAspect = some false then
    .render { height := jsOrNum opts.height full.height
              width := jsOrNum opts.width full.width }
  else if scaleDown opts full then
    let largerDimension := if full.width < full.height then full.height else full.width
    let chosenHeight := opts.height.getD 0
    let chosenWidth := opts.width.getD 0
    let percentage : ℚ :=
      if 0 < chosenHeight ∧ 0 < chosenWidth then
        (if full.width < full.height then chosenHeight else chosenWidth) / largerDimension
      else if 0 < chosenHeight then chosenHeight / largerDimension
      else if 0 < chosenWidth then chosenWidth / largerDimension
      else 1
    .render { height := full.height * percentage
              width := full.width * percentage }
  else
    .skip

/-- The asynchronous phase of `scaleBase64`, after a successful decode:
apply the sizing policy; a skip returns the original base64 with the
natural dimensions, a render needs a 2D context (else the call rejects
with the context error) and returns the canvas re-encode at the new
size. -/
def scaleAsync (host : Host) (base64 : String) (opts : ScaleOptions)
    (imageData : ImageData) : Except JSError BlobData :=
  match scaleSizing opts imageData.dimensions with
  | .skip => .ok { base64 := base64, dimensions := imageData.dimensions }
  | .render dims =>
    if host.contextAvailable then
      .ok { base64 := host.toDataURL imageData.image dims, dimensions := dims }
    else
      .error .renderContextError

/-- Function `scaleBase64` from src/index.ts: a synchronous throw (outer `.error`)
when neither option field is a number, otherwise the returned promise
(outer `.ok`) runs the loader and then the asynchronous scaling phase. -/
def scaleBase64 (host : Host) (base64 : String) (opts : ScaleOptions) :
    Except JSError (Except JSError BlobData) :=
  if opts.height.isNone && opts.width.isNone then
    .error .invalidOptions
  else
    .ok (match getImageData host base64 with
      | .error e => .error e
      | .ok imageData => scaleAsync host base64 opts imageData)



/-! ## Concrete hosts used to instantiate the theorems -/

/-- A host whose decoder reports natural dimensions `h × w` for any string,
with a working 2D context and an opaque re-encoder. -/
def demoHost (h w : ℚ) : Host where
  decode := fun _ => .ok { dimensions := { height := h, width := w }, image := 0 }
  read := fun _ => .ok "data"
  contextAvailable := true
  toDataURL := fun _ _ => "scaled"

/-- A host whose decoder aborts every decode with the given event. -/
def abortingHost (event : Nat) : Host where
  decode := fun _ => .error event
  read := fun _ => .ok "data"
  contextAvailable := true
  toDataURL := fun _ _ => "scaled"

/-! ## Helper lemmas -/

/-- The source's larger-axis selection agrees with `max`. -/
theorem larger_eq_max (a b : ℚ) : (if b < a then a else b) = max a b := by
  rcases le_or_lt a b with h | h
  · rw [if_neg (not_lt.mpr h), max_eq_right h]
  · rw [if_pos h, max_eq_left h.le]

/-- A valid call whose decode succeeds runs the asynchronous scaling phase. -/
theorem scaleBase64_decode_ok (host : Host) (base64 : String)
    (opts : ScaleOptions) (imageData : ImageData)
    (hv : (opts.height.isNone && opts.width.isNone) = false)
    (hd : host.decode base64 = .ok imageData) :
    scaleBase64 host base64 opts = .ok (scaleAsync host base64 opts imageData) := by
  simp [scaleBase64, getImageData, hv, hd]

/-- Characterization of the short-circuit condition: `scaleDown` is false
exactly when every given nonzero constraint is already satisfied. -/
theorem scaleDown_eq_false_iff (opts : ScaleOptions) (full : Dimensions) :
    scaleDown opts full = false ↔
      (∀ x, opts.height = some x → x ≠ 0 → full.height ≤ x) ∧
      (∀ x, opts.width = some x → x ≠ 0 → full.width ≤ x) := by
  obtain ⟨oh, ow, pr⟩ := opts
  cases oh <;> cases ow <;> simp [scaleDown, not_lt]


/-! ## Claims -/

/-- C3: for every `ScaleOptions` in which neither `height` nor `width` is a
number, `scaleBase64` fails on the synchronous (outer) channel with
`InvalidOptionsError`.  The host is universally quantified and the result
does not depend on it, so no image decode is attempted and the failure is
not delivered through the asynchronous (inner) result channel. -/
theorem c3_invalid_options_synchronous (host : Host) (base64 : String)
    (opts : ScaleOptions)
    (hh : opts.height = none) (hw : opts.width = none) :
    scaleBase64 host base64 opts = .error .invalidOptions := by
  simp [scaleBase64, hh, hw]

/-- Witness for C3 at a concrete host and option record. -/
theorem c3_witness :
    scaleBase64 (demoHost 100 200) "img" ⟨none, none, some true⟩
      = .error .invalidOptions :=
  c3_invalid_options_synchronous (demoHost 100 200) "img"
    ⟨none, none, some true⟩ rfl rfl

/-- C9: `getFileBlobs` resolves with exactly the input's file entries in
their host-reported order (so N files give N handles), and a null or
empty file list yields the empty sequence.  The operation is a total
function into `List File`: it has no failure path. -/
theorem c9_enumeration_order (l : List File) :
    getFileBlobs ⟨some l⟩ = l ∧
    (getFileBlobs ⟨some l⟩).length = l.length ∧
    getFileBlobs ⟨none⟩ = [] := by
  simp [getFileBlobs]

/-- C10: an option record carrying a zero constraint (height 0 with width
absent, or width 0 with height absent) passes the entry validation —
zero is a number — yet in ratio-preserving mode the zero constraint is
falsy for `scaleDown`, so the call short-circuits and resolves with the
original string and the natural dimensions. -/
theorem c10_zero_constraint_noop (host : Host) (base64 : String)
    (imageData : ImageData) (r : Option Bool) (opts : ScaleOptions)
    (hd : host.decode base64 = .ok imageData)
    (hr : r ≠ some false)
    (hopts : opts = ⟨some 0, none, r⟩ ∨ opts = ⟨none, some 0, r⟩) :
    scaleBase64 host base64 opts
      = .ok (.ok { base64 := base64, dimensions := imageData.dimensions }) := by
  rcases hopts with h | h <;>
    (subst h
     rw [scaleBase64_decode_ok _ _ _ _ (by simp) hd]
     simp [scaleAsync, scaleSizing, scaleDown, hr])

/-- Witness for C10 at a concrete host and a zero height constraint. -/
theorem c10_witness :
    scaleBase64 (demoHost 10 10) "img" ⟨some 0, none, none⟩
      = .ok (.ok { base64 := "img", dimensions := { height := 10, width := 10 } }) :=
  c10_zero_constraint_noop (demoHost 10 10) "img" ⟨⟨10, 10⟩, 0⟩ none
    ⟨some 0, none, none⟩ rfl (by simp) (Or.inl rfl)

/-- C4: when the natural dimensions already satisfy every given constraint
(each given height is at least the natural height, each given width at
least the natural width), ratio-preserving `scaleBase64` resolves with
the original base64 string unchanged and the natural dimensions.  The
host's context availability and re-encoder are arbitrary and absent from
the result, so no canvas work and no re-encode take place. -/
theorem c4_noop_short_circuit (host : Host) (base64 : String)
    (opts : ScaleOptions) (imageData : ImageData)
    (hd : host.decode base64 = .ok imageData)
    (hv : (opts.height.isNone && opts.width.isNone) = false)
    (hr : opts.preserveAspect ≠ some false)
    (hh : ∀ x, opts.height = some x → imageData.dimensions.height ≤ x)
    (hw : ∀ x, opts.width = some x → imageData.dimensions.width ≤ x) :
    scaleBase64 host base64 opts
      = .ok (.ok { base64 := base64, dimensions := imageData.dimensions }) := by
  have hsd : scaleDown opts imageData.dimensions = false :=
    (scaleDown_eq_false_iff opts imageData.dimensions).mpr
      ⟨fun x hx _ => hh x hx, fun x hx _ => hw x hx⟩
  rw [scaleBase64_decode_ok _ _ _ _ hv hd]
  simp [scaleAsync, scaleSizing, hr, hsd]

/-- Witness for C4: a 100×200 image with constraints 100×300 is untouched. -/
theorem c4_witness :
    scaleBase64 (demoHost 100 200) "img" ⟨some 100, some 300, none⟩
      = .ok (.ok { base64 := "img", dimensions := { height := 100, width := 200 } }) := by
  have h := c4_noop_short_circuit (demoHost 100 200) "img"
    ⟨some 100, some 300, none⟩ ⟨⟨100, 200⟩, 0⟩ rfl rfl (by simp)
    (by intro x hx; simp only [Option.some.injEq] at hx; exact hx.le)
    (by intro x hx; simp only [Option.some.injEq] at hx
        exact le_trans (by norm_num) hx.le)
  exact h

/-- C7: when the host aborts the decode with event `event`, the Image
Loader fails with the image-decode error carrying that event, and both
callers — `getBase64` (after a successful read of the same string) and a
validly-invoked `scaleBase64` — fail with that very same error value:
forwarded verbatim, with no wrapping, translation, or retry. -/
theorem c7_decode_error_forwarded (host : Host) (base64 : String)
    (file : File) (opts : ScaleOptions) (event : Nat)
    (hd : host.decode base64 = .error event)
    (hread : host.read file = .ok base64)
    (hv : (opts.height.isNone && opts.width.isNone) = false) :
    getImageData host base64 = .error (.imageDecodeError event) ∧
    getBase64 host file = .error (.imageDecodeError event) ∧
    scaleBase64 host base64 opts = .ok (.error (.imageDecodeError event)) := by
  refine ⟨?_, ?_, ?_⟩ <;>
    simp [getImageData, getBase64, scaleBase64, hd, hread, hv]

/-- Witness for C7 at a concrete aborting host. -/
theorem c7_witness :
    getImageData (abortingHost 7) "data" = .error (.imageDecodeError 7) ∧
    getBase64 (abortingHost 7) ⟨"cat.png", 0⟩ = .error (.imageDecodeError 7) ∧
    scaleBase64 (abortingHost 7) "data" ⟨some 50, none, none⟩
      = .ok (.error (.imageDecodeError 7)) :=
  c7_decode_error_forwarded (abortingHost 7) "data" ⟨"cat.png", 0⟩
    ⟨some 50, none, none⟩ 7 rfl rfl rfl

/-- C6: in free-scaling mode each output axis is set independently — a
provided nonzero constraint wins, a missing or zero (falsy) one falls
back to the natural axis — and the result is the canvas re-encode at
that size. -/
theorem c6_free_scaling_independent_axes (host : Host) (base64 : String)
    (opts : ScaleOptions) (hgt wdt : ℚ) (n : Nat)
    (hd : host.decode base64 = .ok ⟨⟨hgt, wdt⟩, n⟩)
    (hctx : host.contextAvailable = true)
    (hfree : opts.preserveAspect = some false)
    (hv : (opts.height.isNone && opts.width.isNone) = false) :
    scaleBase64 host base64 opts = .ok (.ok
      { base64 := host.toDataURL n
          { height := match opts.height with
              | some h => if h = 0 then hgt else h
              | none => hgt
            width := match opts.width with
              | some w => if w = 0 then wdt else w
              | none => wdt }
        dimensions :=
          { height := match opts.height with
              | some h => if h = 0 then hgt else h
              | none => hgt
            width := match opts.width with
              | some w => if w = 0 then wdt else w
              | none => wdt } }) := by
  obtain ⟨oh, ow, pr⟩ := opts
  cases oh <;> cases ow <;>
    (rw [scaleBase64_decode_ok _ _ _ _ hv hd]
     simp_all [scaleAsync, scaleSizing, jsOrNum])

/-- Witness for C6: the spec's example, a 200×100 image stretched to
300×300 with the aspect flag false. -/
theorem c6_witness :
    scaleBase64 (demoHost 200 100) "img" ⟨some 300, some 300, some false⟩
      = .ok (.ok { base64 := "scaled", dimensions := { height := 300, width := 300 } }) := by
  have h := c6_free_scaling_independent_axes (demoHost 200 100) "img"
    ⟨some 300, some 300, some false⟩ 200 100 0 rfl rfl rfl rfl
  simp only [demoHost] at h
  norm_num at h
  exact h

/-! ## The spec's description of the ratio-preserving scale factor -/

/-- Modelled from the spec's wording of §4.4 step 3 (for comparison with
the source-derived `scaleSizing`): the single scale factor
`p = c / max(H, W)`, where `c` is the height constraint when the height
is the larger natural axis and both constraints are positive, the width
constraint when the width is the larger-or-equal natural axis and both
are positive, and the single positive constraint otherwise. -/
def specScaleFactor (opts : ScaleOptions) (full : Dimensions) : ℚ :=
  (if 0 < opts.height.getD 0 ∧ 0 < opts.width.getD 0 then
      (if full.width < full.height then opts.height.getD 0 else opts.width.getD 0)
    else if 0 < opts.height.getD 0 then opts.height.getD 0
    else opts.width.getD 0) / max full.height full.width

/-- Characterization of the downscale trigger: `scaleDown` is true exactly
when some given nonzero constraint is exceeded by its natural axis. -/
theorem scaleDown_eq_true_iff (opts : ScaleOptions) (full : Dimensions) :
    scaleDown opts full = true ↔
      (∃ x, opts.height = some x ∧ x ≠ 0 ∧ x < full.height) ∨
      (∃ x, opts.width = some x ∧ x ≠ 0 ∧ x < full.width) := by
  obtain ⟨oh, ow, pr⟩ := opts
  cases oh <;> cases ow <;> simp [scaleDown]

/-- On the ratio-preserving downscale path, the sizing policy renders at
the natural dimensions multiplied by the spec's scale factor. -/
theorem scaleSizing_ratio_scale (opts : ScaleOptions) (full : Dimensions)
    (hmode : opts.preserveAspect ≠ some false)
    (hneed : scaleDown opts full = true)
    (hpos : 0 < opts.height.getD 0 ∨ 0 < opts.width.getD 0) :
    scaleSizing opts full = .render
      { height := full.height * specScaleFactor opts full
        width := full.width * specScaleFactor opts full } := by
  by_cases h1 : 0 < opts.height.getD 0 ∧ 0 < opts.width.getD 0
  · simp [scaleSizing, hmode, hneed, specScaleFactor, h1, larger_eq_max]
  · by_cases h2 : 0 < opts.height.getD 0
    · have hcw : ¬ 0 < opts.width.getD 0 := fun hc => h1 ⟨h2, hc⟩
      simp [scaleSizing, hmode, hneed, specScaleFactor, h2, hcw, larger_eq_max]
    · have h3 : 0 < opts.width.getD 0 := hpos.resolve_left h2
      simp [scaleSizing, hmode, hneed, specScaleFactor, h1, h2, h3, larger_eq_max]

/-- Scaling the first coordinate by `c / max` keeps it below `c`. -/
theorem mul_div_max_le_left (a b c : ℚ) (_ha : 0 ≤ a) (hc : 0 ≤ c)
    (hmax : 0 < max a b) : a * (c / max a b) ≤ c := by
  have h1 : a * (c / max a b) ≤ max a b * (c / max a b) :=
    mul_le_mul_of_nonneg_right (le_max_left a b) (div_nonneg hc hmax.le)
  have h2 : max a b * (c / max a b) = c := by
    rw [mul_comm, div_mul_cancel₀ _ hmax.ne']
  linarith

/-- Scaling the second coordinate by `c / max` keeps it below `c`. -/
theorem mul_div_max_le_right (a b c : ℚ) (hb : 0 ≤ b) (hc : 0 ≤ c)
    (hmax : 0 < max a b) : b * (c / max a b) ≤ c := by
  rw [max_comm] at hmax ⊢
  exact mul_div_max_le_left b a c hb hc hmax

/-- C2: when ratio-preserving downscaling is needed and at least one
constraint is positive, the call resolves with the canvas re-encode at
dimensions `(H * p, W * p)` where `p` is the spec's scale factor
`c / max(H, W)` (see `specScaleFactor`). -/
theorem c2_spec_scale_factor (host : Host) (base64 : String)
    (opts : ScaleOptions) (hgt wdt : ℚ) (n : Nat)
    (hd : host.decode base64 = .ok ⟨⟨hgt, wdt⟩, n⟩)
    (hctx : host.contextAvailable = true)
    (hmode : opts.preserveAspect ≠ some false)
    (hneed : scaleDown opts ⟨hgt, wdt⟩ = true)
    (hpos : 0 < opts.height.getD 0 ∨ 0 < opts.width.getD 0) :
    scaleBase64 host base64 opts = .ok (.ok
      { base64 := host.toDataURL n
          { height := hgt * specScaleFactor opts ⟨hgt, wdt⟩
            width := wdt * specScaleFactor opts ⟨hgt, wdt⟩ }
        dimensions :=
          { height := hgt * specScaleFactor opts ⟨hgt, wdt⟩
            width := wdt * specScaleFactor opts ⟨hgt, wdt⟩ } }) := by
  have hv : (opts.height.isNone && opts.width.isNone) = false := by
    rcases hpos with h | h
    · rcases hoh : opts.height with _ | x
      · rw [hoh] at h; simp at h
      · simp [hoh]
    · rcases how : opts.width with _ | x
      · rw [how] at h; simp at h
      · simp [how]
  rw [scaleBase64_decode_ok _ _ _ _ hv hd]
  have hs := scaleSizing_ratio_scale opts ⟨hgt, wdt⟩ hmode hneed hpos
  simp [scaleAsync, hs, hctx]

/-- Witness for C2: the spec's two worked examples on a 200×100 image,
`{height: 50, width: 50}` and `{width: 50}` alone, both yielding
dimensions (50, 25) via `p = 50/200`. -/
theorem c2_witness :
    scaleBase64 (demoHost 200 100) "img" ⟨some 50, some 50, some true⟩
      = .ok (.ok { base64 := "scaled", dimensions := { height := 50, width := 25 } }) ∧
    scaleBase64 (demoHost 200 100) "img" ⟨none, some 50, some true⟩
      = .ok (.ok { base64 := "scaled", dimensions := { height := 50, width := 25 } }) := by
  constructor
  · rw [c2_spec_scale_factor (demoHost 200 100) "img" ⟨some 50, some 50, some true⟩
      200 100 0 rfl rfl (by simp) (by norm_num [scaleDown]) (by norm_num)]
    norm_num [demoHost, specScaleFactor]
  · rw [c2_spec_scale_factor (demoHost 200 100) "img" ⟨none, some 50, some true⟩
      200 100 0 rfl rfl (by simp) (by norm_num [scaleDown]) (by norm_num)]
    norm_num [demoHost, specScaleFactor]

/-- C1 counterexample: a 100×200 image with both constraints positive
(`{height: 50, width: 150}`, ratio-preserving) is scaled by the width
constraint — the one matching the larger natural axis — so the result
height is 75, violating the height constraint 50. -/
theorem c1_counterexample :
    scaleBase64 (demoHost 100 200) "img" ⟨some 50, some 150, some true⟩
      = .ok (.ok { base64 := "scaled", dimensions := { height := 75, width := 150 } }) ∧
    ¬ ((75 : ℚ) ≤ 50) := by
  constructor
  · simp [scaleBase64, getImageData, demoHost, scaleAsync, scaleSizing, scaleDown, jsOrNum]
    norm_num
  · norm_num

/-- C1 (amended): with both constraints positive in ratio-preserving mode,
both result dimensions are bounded by the constraint matching the larger
natural axis — the height constraint when H > W, else the width
constraint; the other axis's constraint may be exceeded. -/
theorem c1_dominant_axis_bound (host : Host) (base64 : String)
    (opts : ScaleOptions) (hgt wdt h w : ℚ) (n : Nat)
    (hd : host.decode base64 = .ok ⟨⟨hgt, wdt⟩, n⟩)
    (hctx : host.contextAvailable = true)
    (hmode : opts.preserveAspect ≠ some false)
    (hh : opts.height = some h) (hw2 : opts.width = some w)
    (hhpos : 0 < h) (hwpos : 0 < w)
    (hH : 0 ≤ hgt) (hW : 0 ≤ wdt) :
    ∃ bd, scaleBase64 host base64 opts = .ok (.ok bd) ∧
      bd.dimensions.height ≤ (if wdt < hgt then h else w) ∧
      bd.dimensions.width ≤ (if wdt < hgt then h else w) := by
  have hv : (opts.height.isNone && opts.width.isNone) = false := by simp [hh]
  rw [scaleBase64_decode_ok _ _ _ _ hv hd]
  cases hsd : scaleDown opts ⟨hgt, wdt⟩ with
  | false =>
    obtain ⟨hbh, hbw⟩ := (scaleDown_eq_false_iff opts ⟨hgt, wdt⟩).mp hsd
    have h1 : hgt ≤ h := hbh h hh (ne_of_gt hhpos)
    have h2 : wdt ≤ w := hbw w hw2 (ne_of_gt hwpos)
    refine ⟨{ base64 := base64, dimensions := ⟨hgt, wdt⟩ }, ?_, ?_, ?_⟩
    · simp [scaleAsync, scaleSizing, hmode, hsd]
    · show hgt ≤ _
      split
      · exact h1
      · next hc => exact le_trans (not_lt.mp hc) h2
    · show wdt ≤ _
      split
      · next hc => exact le_trans hc.le h1
      · exact h2
  | true =>
    have hpos : 0 < opts.height.getD 0 ∨ 0 < opts.width.getD 0 := by
      left; rw [hh]; simpa using hhpos
    have hs := scaleSizing_ratio_scale opts ⟨hgt, wdt⟩ hmode hsd hpos
    have hmax : 0 < max hgt wdt := by
      rcases (scaleDown_eq_true_iff opts ⟨hgt, wdt⟩).mp hsd with ⟨x, hx, hxa, hlt⟩ | ⟨x, hx, hxa, hlt⟩
      · rw [hh] at hx
        injection hx with hx
        exact lt_of_lt_of_le (lt_trans (hx ▸ hhpos) hlt) (le_max_left _ _)
      · rw [hw2] at hx
        injection hx with hx
        exact lt_of_lt_of_le (lt_trans (hx ▸ hwpos) hlt) (le_max_right _ _)
    have hspec : specScaleFactor opts ⟨hgt, wdt⟩
        = (if wdt < hgt then h else w) / max hgt wdt := by
      simp [specScaleFactor, hh, hw2, hhpos, hwpos]
    have hcpos : 0 ≤ (if wdt < hgt then h else w) := by
      split
      · exact hhpos.le
      · exact hwpos.le
    refine ⟨{ base64 := host.toDataURL n
                ⟨hgt * specScaleFactor opts ⟨hgt, wdt⟩,
                 wdt * specScaleFactor opts ⟨hgt, wdt⟩⟩,
              dimensions := ⟨hgt * specScaleFactor opts ⟨hgt, wdt⟩,
                 wdt * specScaleFactor opts ⟨hgt, wdt⟩⟩ }, ?_, ?_, ?_⟩
    · simp [scaleAsync, hs, hctx]
    · show hgt * specScaleFactor opts ⟨hgt, wdt⟩ ≤ _
      rw [hspec]
      exact mul_div_max_le_left hgt wdt _ hH hcpos hmax
    · show wdt * specScaleFactor opts ⟨hgt, wdt⟩ ≤ _
      rw [hspec]
      exact mul_div_max_le_right hgt wdt _ hW hcpos hmax

/-- Witness for the amended C1: the counterexample image and options,
where both result dimensions respect the width (larger-axis) constraint. -/
theorem c1_amended_witness :
    ∃ bd, scaleBase64 (demoHost 100 200) "img" ⟨some 50, some 150, some true⟩
        = .ok (.ok bd) ∧
      bd.dimensions.height ≤ (if (200 : ℚ) < 100 then 50 else 150) ∧
      bd.dimensions.width ≤ (if (200 : ℚ) < 100 then 50 else 150) :=
  c1_dominant_axis_bound (demoHost 100 200) "img" ⟨some 50, some 150, some true⟩
    100 200 50 150 0 rfl rfl (by simp) rfl rfl (by norm_num) (by norm_num)
    (by norm_num) (by norm_num)

/-- C5 counterexample: a 100×200 image with `{height: 50, width: 300}` in
ratio-preserving mode triggers a downscale check through the height, but
the factor comes from the width constraint 300 against the larger axis
200, so the image is upscaled to (150, 300) — past its natural size. -/
theorem c5_counterexample :
    scaleBase64 (demoHost 100 200) "img" ⟨some 50, some 300, none⟩
      = .ok (.ok { base64 := "scaled", dimensions := { height := 150, width := 300 } }) ∧
    ¬ ((150 : ℚ) ≤ 100) := by
  constructor
  · simp [scaleBase64, getImageData, demoHost, scaleAsync, scaleSizing, scaleDown, jsOrNum]
    norm_num
  · norm_num

/-- C5 (amended): in ratio-preserving mode, with every given constraint
positive (the data model's domain for `ScaleOptions`), the result never
exceeds the natural dimensions provided that, when both constraints are
given, the constraint matching the larger natural axis is at most
`max(H, W)`; without that proviso the ratio-preserving path can upscale,
as `c5_counterexample` shows. -/
theorem c5_no_implicit_upscale (host : Host) (base64 : String)
    (opts : ScaleOptions) (hgt wdt : ℚ) (n : Nat)
    (hd : host.decode base64 = .ok ⟨⟨hgt, wdt⟩, n⟩)
    (hctx : host.contextAvailable = true)
    (hmode : opts.preserveAspect ≠ some false)
    (hv : (opts.height.isNone && opts.width.isNone) = false)
    (hhp : ∀ x, opts.height = some x → 0 < x)
    (hwp : ∀ x, opts.width = some x → 0 < x)
    (hdom : 0 < opts.height.getD 0 → 0 < opts.width.getD 0 →
      (if wdt < hgt then opts.height.getD 0 else opts.width.getD 0) ≤ max hgt wdt)
    (hH : 0 ≤ hgt) (hW : 0 ≤ wdt) :
    ∃ bd, scaleBase64 host base64 opts = .ok (.ok bd) ∧
      bd.dimensions.height ≤ hgt ∧ bd.dimensions.width ≤ wdt := by
  rw [scaleBase64_decode_ok _ _ _ _ hv hd]
  cases hsd : scaleDown opts ⟨hgt, wdt⟩ with
  | false =>
    exact ⟨{ base64 := base64, dimensions := ⟨hgt, wdt⟩ },
      by simp [scaleAsync, scaleSizing, hmode, hsd], le_refl hgt, le_refl wdt⟩
  | true =>
    rcases (scaleDown_eq_true_iff opts ⟨hgt, wdt⟩).mp hsd with
      ⟨x, hx, hx0, hlt⟩ | ⟨x, hx, hx0, hlt⟩
    case true.inl =>
      have hxpos : 0 < x := hhp x hx
      have hch : 0 < opts.height.getD 0 := by rw [hx]; simpa using hxpos
      have hmax : 0 < max hgt wdt :=
        lt_of_lt_of_le (lt_trans hxpos hlt) (le_max_left _ _)
      have hs := scaleSizing_ratio_scale opts ⟨hgt, wdt⟩ hmode hsd (Or.inl hch)
      have hp1 : specScaleFactor opts ⟨hgt, wdt⟩ ≤ 1 := by
        rw [specScaleFactor, div_le_one hmax]
        by_cases hcw : 0 < opts.width.getD 0
        · rw [if_pos ⟨hch, hcw⟩]
          exact hdom hch hcw
        · rw [if_neg (fun hand => hcw hand.2), if_pos hch]
          have hcx : opts.height.getD 0 = x := by rw [hx]; simp
          rw [hcx]
          exact le_trans hlt.le (le_max_left _ _)
      exact ⟨{ base64 := host.toDataURL n
                ⟨hgt * specScaleFactor opts ⟨hgt, wdt⟩,
                 wdt * specScaleFactor opts ⟨hgt, wdt⟩⟩,
               dimensions := ⟨hgt * specScaleFactor opts ⟨hgt, wdt⟩,
                 wdt * specScaleFactor opts ⟨hgt, wdt⟩⟩ },
        by simp [scaleAsync, hs, hctx],
        mul_le_of_le_one_right hH hp1,
        mul_le_of_le_one_right hW hp1⟩
    case true.inr =>
      have hxpos : 0 < x := hwp x hx
      have hcw : 0 < opts.width.getD 0 := by rw [hx]; simpa using hxpos
      have hmax : 0 < max hgt wdt :=
        lt_of_lt_of_le (lt_trans hxpos hlt) (le_max_right _ _)
      have hs := scaleSizing_ratio_scale opts ⟨hgt, wdt⟩ hmode hsd (Or.inr hcw)
      have hp1 : specScaleFactor opts ⟨hgt, wdt⟩ ≤ 1 := by
        rw [specScaleFactor, div_le_one hmax]
        have hcx : opts.width.getD 0 = x := by rw [hx]; simp
        by_cases hch : 0 < opts.height.getD 0
        · rw [if_pos ⟨hch, hcw⟩]
          exact hdom hch hcw
        · rw [if_neg (fun hand => hch hand.1), if_neg hch, hcx]
          exact le_trans hlt.le (le_max_right _ _)
      exact ⟨{ base64 := host.toDataURL n
                ⟨hgt * specScaleFactor opts ⟨hgt, wdt⟩,
                 wdt * specScaleFactor opts ⟨hgt, wdt⟩⟩,
               dimensions := ⟨hgt * specScaleFactor opts ⟨hgt, wdt⟩,
                 wdt * specScaleFactor opts ⟨hgt, wdt⟩⟩ },
        by simp [scaleAsync, hs, hctx],
        mul_le_of_le_one_right hH hp1,
        mul_le_of_le_one_right hW hp1⟩

/-- Witness for the amended C5: a 200×100 image with `{height: 50,
width: 50}` stays within its natural size. -/
theorem c5_amended_witness :
    ∃ bd, scaleBase64 (demoHost 200 100) "img" ⟨some 50, some 50, none⟩
        = .ok (.ok bd) ∧
      bd.dimensions.height ≤ 200 ∧ bd.dimensions.width ≤ 100 :=
  c5_no_implicit_upscale (demoHost 200 100) "img" ⟨some 50, some 50, none⟩
    200 100 0 rfl rfl (by simp) rfl
    (by intro x hx; simp only [Option.some.injEq] at hx; rw [← hx]; norm_num)
    (by intro x hx; simp only [Option.some.injEq] at hx; rw [← hx]; norm_num)
    (by intro _ _
        have : ((200 : ℚ) ⊔ 100) = 200 := by
          rw [max_eq_left]; norm_num
        simp only [Option.getD_some, this]
        split <;> norm_num)
    (by norm_num) (by norm_num)

/-- The effective size constraint an optional numeric field imposes: a
present nonzero value constrains; a zero or absent value is falsy for
the downscale check and imposes no constraint. -/
def effectiveConstraint (value : Option ℚ) : Option ℚ :=
  match value with
  | some x => if x = 0 then none else some x
  | none => none

/-- Field `c2` is at least as loose as `c1`: it either imposes no
effective constraint, or both impose one and `c2`'s is at least as
large. -/
def looserThan (c1 c2 : Option ℚ) : Prop :=
  effectiveConstraint c2 = none ∨
    ∃ a b, effectiveConstraint c1 = some a ∧ effectiveConstraint c2 = some b ∧ a ≤ b

/-- Unfolding of `effectiveConstraint` on a constraining field. -/
theorem effectiveConstraint_eq_some (value : Option ℚ) (a : ℚ) :
    effectiveConstraint value = some a ↔ value = some a ∧ a ≠ 0 := by
  cases value with
  | none => simp [effectiveConstraint]
  | some x =>
    by_cases hx : x = 0
    · subst hx
      simp only [effectiveConstraint, if_pos rfl]
      constructor
      · intro hc
        exact absurd hc (by simp)
      · rintro ⟨hxa, ha⟩
        injection hxa with hxa
        exact absurd hxa.symm ha
    · simp [effectiveConstraint, hx]
      rintro rfl
      exact hx

/-- C8 counterexample: on a 20×10 image, `{height: 0, width: 20}` takes
the ratio-preserving short-circuit path (the zero height is falsy), but
re-scaling the returned string with the numerically at-least-as-large
`{height: 15, width: 20}` triggers a downscale to (15, 15/2) — not the
identical result the claim promises. -/
theorem c8_counterexample :
    scaleBase64 (demoHost 20 10) "img" ⟨some 0, some 20, none⟩
      = .ok (.ok { base64 := "img", dimensions := { height := 20, width := 10 } }) ∧
    ((0 : ℚ) ≤ 15 ∧ (20 : ℚ) ≤ 20) ∧
    scaleBase64 (demoHost 20 10) "img" ⟨some 15, some 20, none⟩
      = .ok (.ok { base64 := "scaled", dimensions := { height := 15, width := 15 / 2 } }) ∧
    ¬ ((15 : ℚ) = 20 ∧ (15 / 2 : ℚ) = 10) := by
  refine ⟨?_, ⟨by norm_num, le_refl _⟩, ?_, ?_⟩
  · simp [scaleBase64, getImageData, demoHost, scaleAsync, scaleSizing, scaleDown, jsOrNum]
    norm_num
  · simp [scaleBase64, getImageData, demoHost, scaleAsync, scaleSizing, scaleDown, jsOrNum]
    norm_num
  · norm_num

/-- C8 (amended): a ratio-preserving short-circuit result, re-scaled on
the same string with options at least as loose in effective terms —
every constraint the second call effectively imposes (present and
nonzero) is matched by a first-call effective constraint that is no
larger, treating zero and absent fields as imposing nothing — resolves
with the identical encoded string and identical dimensions. -/
theorem c8_short_circuit_idempotent (host : Host) (base64 : String)
    (opts1 opts2 : ScaleOptions) (hgt wdt : ℚ) (n : Nat)
    (hd : host.decode base64 = .ok ⟨⟨hgt, wdt⟩, n⟩)
    (hv1 : (opts1.height.isNone && opts1.width.isNone) = false)
    (hm1 : opts1.preserveAspect ≠ some false)
    (hsc : scaleDown opts1 ⟨hgt, wdt⟩ = false)
    (hv2 : (opts2.height.isNone && opts2.width.isNone) = false)
    (hm2 : opts2.preserveAspect ≠ some false)
    (hlh : looserThan opts1.height opts2.height)
    (hlw : looserThan opts1.width opts2.width) :
    scaleBase64 host base64 opts1
      = .ok (.ok { base64 := base64, dimensions := ⟨hgt, wdt⟩ }) ∧
    scaleBase64 host base64 opts2
      = .ok (.ok { base64 := base64, dimensions := ⟨hgt, wdt⟩ }) := by
  obtain ⟨hb1, hb2⟩ := (scaleDown_eq_false_iff opts1 ⟨hgt, wdt⟩).mp hsc
  have hsc2 : scaleDown opts2 ⟨hgt, wdt⟩ = false := by
    refine (scaleDown_eq_false_iff opts2 ⟨hgt, wdt⟩).mpr ⟨?_, ?_⟩
    · intro x hx hx0
      have heff : effectiveConstraint opts2.height = some x :=
        (effectiveConstraint_eq_some _ _).mpr ⟨hx, hx0⟩
      rcases hlh with hnone | ⟨a, b, ha, hb, hab⟩
      · rw [heff] at hnone
        exact absurd hnone (by simp)
      · rw [heff] at hb
        injection hb with hb
        obtain ⟨ha1, ha0⟩ := (effectiveConstraint_eq_some _ _).mp ha
        exact le_trans (hb1 a ha1 ha0) (hb ▸ hab)
    · intro x hx hx0
      have heff : effectiveConstraint opts2.width = some x :=
        (effectiveConstraint_eq_some _ _).mpr ⟨hx, hx0⟩
      rcases hlw with hnone | ⟨a, b, ha, hb, hab⟩
      · rw [heff] at hnone
        exact absurd hnone (by simp)
      · rw [heff] at hb
        injection hb with hb
        obtain ⟨ha1, ha0⟩ := (effectiveConstraint_eq_some _ _).mp ha
        exact le_trans (hb2 a ha1 ha0) (hb ▸ hab)
  constructor
  · rw [scaleBase64_decode_ok _ _ _ _ hv1 hd]
    simp [scaleAsync, scaleSizing, hm1, hsc]
  · rw [scaleBase64_decode_ok _ _ _ _ hv2 hd]
    simp [scaleAsync, scaleSizing, hm2, hsc2]

/-- Witness for the amended C8: a 20×10 image untouched by
`{height: 25, width: 30}` stays untouched under the looser
`{height: 40, width: 30}`. -/
theorem c8_amended_witness :
    scaleBase64 (demoHost 20 10) "img" ⟨some 25, some 30, none⟩
      = .ok (.ok { base64 := "img", dimensions := { height := 20, width := 10 } }) ∧
    scaleBase64 (demoHost 20 10) "img" ⟨some 40, some 30, none⟩
      = .ok (.ok { base64 := "img", dimensions := { height := 20, width := 10 } }) :=
  c8_short_circuit_idempotent (demoHost 20 10) "img"
    ⟨some 25, some 30, none⟩ ⟨some 40, some 30, none⟩ 20 10 0 rfl rfl (by simp)
    (by norm_num [scaleDown]) rfl (by simp)
    (Or.inr ⟨25, 40, by norm_num [effectiveConstraint],
      by norm_num [effectiveConstraint], by norm_num⟩)
    (Or.inr ⟨30, 30, by norm_num [effectiveConstraint],
      by norm_num [effectiveConstraint], le_refl 30⟩)

end ImageBlobber
